import Mathlib

/-!
Verification development for the GTpo generic graph container
(src/GTpo/src/gtpoGenGraph.h).  The header declares the public surface of
`gtpo::GenGraph<Config>`: authoritative node / edge / group lists, a
root-node cache, fast-membership search indices, a control-node list and
observer behaviours.  Node, edge and group records are identified here by
natural-number identities; weak handles are `Option Nat` (`none` is an
expired or null handle).  Containers are lists; `container_adapter`
insertion on the default vector containers is modelled by appending and
the erase-remove idiom by `List.filter`.  Machine integer conversions in
the count accessors are modelled explicitly with `% 2^32`.
-/

namespace GTpo

/-- Error kind `gtpo::bad_topology_error` raised by mutating operations. -/
structure TopologyError where
  msg : String
deriving DecidableEq, Repr

/-- Destination of a directed edge: either a node, or another edge for a
restricted hyperedge. -/
inductive Dest where
  | node (n : Nat) : Dest
  | edge (e : Nat) : Dest
deriving DecidableEq, Repr

/-- An edge record: identity, source node and polymorphic destination. -/
structure Edge where
  id : Nat
  src : Nat
  dst : Dest
deriving DecidableEq, Repr

/-- A registered observer behaviour with its enabled flag. -/
structure Behaviour where
  id : Nat
  enabled : Bool
deriving DecidableEq, Repr

/-- State of a `gtpo::GenGraph<>`: authoritative lists `_nodes`, `_edges`,
`_groups`, the caches `_rootNodes`, `_nodesSearch`, `_edgesSearch`, the
control-node list `_controlNodes`, group membership of nodes, the
behaviour registry, and fresh-identity counters. -/
structure Graph where
  nodes : List Nat
  nodesSearch : List Nat
  rootNodes : List Nat
  edges : List Edge
  edgesSearch : List Nat
  groups : List Nat
  nodeGroup : List (Nat × Nat)
  controlNodes : List Nat
  behaviours : List Behaviour
  nextNodeId : Nat
  nextEdgeId : Nat
  nextGroupId : Nat
deriving DecidableEq, Repr

/-- The empty graph produced by the `GenGraph` constructor. -/
def emptyGraph : Graph :=
  { nodes := [], nodesSearch := [], rootNodes := [], edges := [],
    edgesSearch := [], groups := [], nodeGroup := [], controlNodes := [],
    behaviours := [], nextNodeId := 0, nextEdgeId := 0, nextGroupId := 0 }

/-- Container insertion (`container_adapter<...>::insert` on the default
vector containers is a push_back). -/
def containerInsert {α : Type} (x : α) (xs : List α) : List α := xs ++ [x]

/-- Container removal by value (erase-remove idiom: removes every
occurrence). -/
def containerRemove (x : Nat) (xs : List Nat) : List Nat :=
  xs.filter (fun y => y != x)

/-- In-degree of a node: number of edges of the authoritative edge list
whose destination is that node. -/
def inDegree (g : Graph) (n : Nat) : Nat :=
  (g.edges.filter (fun e => e.dst == Dest.node n)).length

/-- Out-degree of a node: number of edges whose source is that node. -/
def outDegree (g : Graph) (n : Nat) : Nat :=
  (g.edges.filter (fun e => e.src == n)).length

/-- Group membership of a node, `none` when ungrouped. -/
def groupOf (g : Graph) (n : Nat) : Option Nat :=
  (g.nodeGroup.find? (fun q => q.1 == n)).map (fun q => q.2)

/-- Whether a `Except` result is a success. -/
def resOk {α : Type} : Except TopologyError α → Bool
  | Except.ok _ => true
  | Except.error _ => false

/-- The resulting graph of a mutation, keeping the original state on
error (a thrown `TopologyError` leaves the validated state unchanged). -/
def okOr (g : Graph) : Except TopologyError Graph → Graph
  | Except.ok g' => g'
  | Except.error _ => g

/-! Queries (declared `const noexcept` in the header). -/

/-- Modelled from the spec: `contains(WeakNode)` is a lookup in the fast
membership index `_nodesSearch`; an expired handle is reported absent. -/
def containsNode (g : Graph) (h : Option Nat) : Bool :=
  match h with
  | none => false
  | some n => decide (n ∈ g.nodesSearch)

/-- Modelled from the spec: `contains(WeakEdge)` is a lookup in the fast
membership index `_edgesSearch`. -/
def containsEdge (g : Graph) (h : Option Nat) : Bool :=
  match h with
  | none => false
  | some i => decide (i ∈ g.edgesSearch)

/-- Modelled from the spec: `findEdge(source, destination)` scans the edge
list for the first directed edge between the two nodes and returns its
handle, or an empty handle when there is none or a handle is expired. -/
def findEdge (g : Graph) (s d : Option Nat) : Option Nat :=
  match s, d with
  | some s', some d' =>
      (g.edges.find? (fun e => e.src == s' && e.dst == Dest.node d')).map
        (fun e => e.id)
  | _, _ => none

/-- Modelled from the spec: `findEdge(source, destination)` overload for a
restricted hyperedge destination. -/
def findEdgeE (g : Graph) (s i : Option Nat) : Option Nat :=
  match s, i with
  | some s', some i' =>
      (g.edges.find? (fun e => e.src == s' && e.dst == Dest.edge i')).map
        (fun e => e.id)
  | _, _ => none

/-- Modelled from the spec: `hasEdge` tests the same linear search. -/
def hasEdge (g : Graph) (s d : Option Nat) : Bool :=
  (findEdge g s d).isSome

/-- Modelled from the spec: `hasEdge` overload for hyperedges. -/
def hasEdgeE (g : Graph) (s i : Option Nat) : Bool :=
  (findEdgeE g s i).isSome

/-! Count accessors, from the source (gtpoGenGraph.h lines 348 and 412):
`getEdgeCount` returns `static_cast<int>( _edges.size() )` through the
`unsigned int` return type, `getGroupCount` returns
`static_cast<int>( _groups.size() )` as `int`. -/

/-- Conversion of a `size_t` value to a 32-bit signed `int`
(wrap modulo `2^32` into the signed range). -/
def intCast32 (n : Nat) : Int :=
  if n % 2 ^ 32 < 2 ^ 31 then ((n % 2 ^ 32 : Nat) : Int)
  else ((n % 2 ^ 32 : Nat) : Int) - 2 ^ 32

/-- Conversion of an `int` value to `unsigned int` (modulo `2^32`). -/
def uintCast32 (i : Int) : Nat := (i % (2 ^ 32 : Int)).toNat

/-- From the source: `getEdgeCount()` is
`static_cast<int>( _edges.size() )` converted to `unsigned int`. -/
def getEdgeCount (g : Graph) : Nat := uintCast32 (intCast32 g.edges.length)

/-- From the source: `getGroupCount()` is
`static_cast<int>( _groups.size() )`. -/
def getGroupCount (g : Graph) : Int := intCast32 g.groups.length

/-- From the source: `getNodeCount()` returns `_nodes.size()`. -/
def getNodeCount (g : Graph) : Nat := g.nodes.length

/-- From the source: `getRootNodeCount()` returns `_rootNodes.size()`. -/
def getRootNodeCount (g : Graph) : Nat := g.rootNodes.length

/-! Control nodes.  Both bodies are inline in the header. -/

/-- From the source (gtpoGenGraph.h lines 131-133): `addControlNode` calls
`container_adapter< SharedNodes >::insert( node, _controlNodes )`. -/
def addControlNode (g : Graph) (n : Nat) : Graph :=
  { g with controlNodes := containerInsert n g.controlNodes }

/-- From the source (gtpoGenGraph.h lines 134-136): the body of
`removeControlNode` is `container_adapter< SharedNodes >::insert( node,
_controlNodes )`, identical to `addControlNode`; it inserts into the
control-node container instead of erasing from it. -/
def removeControlNode (g : Graph) (n : Nat) : Graph :=
  { g with controlNodes := containerInsert n g.controlNodes }

/-! Mutating operations.  Their bodies live in gtpoGenGraph.hpp, which is
not part of the extracted sources, so they are modelled from the spec. -/

/-- Modelled from the spec: `insertNode(node)` adopts a node into the
authoritative node list and the fast index and registers it as a root
(in-degree 0), failing with `TopologyError` when the node is already
present. -/
def insertNode (g : Graph) (n : Nat) : Except TopologyError Graph :=
  if n ∈ g.nodes then
    Except.error ⟨"insertNode: node is already present in graph"⟩
  else
    Except.ok
      { g with
        nodes := containerInsert n g.nodes,
        nodesSearch := containerInsert n g.nodesSearch,
        rootNodes := containerInsert n g.rootNodes }

/-- Modelled from the spec: `createNode()` constructs a fresh node record
and inserts it, returning a handle on it. -/
def createNode (g : Graph) : Except TopologyError (Graph × Nat) :=
  match insertNode g g.nextNodeId with
  | Except.ok g' =>
      Except.ok ({ g' with nextNodeId := g.nextNodeId + 1 }, g.nextNodeId)
  | Except.error e => Except.error e

/-- One edge removal step of the edge-removal protocol, applied to an edge
of the authoritative list: erase the edge from the edge list and the fast
index, and when the destination is a node whose in-degree returns to zero,
restore it into the root-node cache. -/
def removeEdgeCore (g : Graph) (e : Edge) : Graph :=
  let edges' := g.edges.erase e
  let roots' :=
    match e.dst with
    | Dest.node d =>
        if (edges'.filter (fun x => x.dst == Dest.node d)).length = 0 then
          containerInsert d g.rootNodes
        else g.rootNodes
    | Dest.edge _ => g.rootNodes
  { g with
    edges := edges',
    edgesSearch := g.edgesSearch.filter (fun i => i != e.id),
    rootNodes := roots' }

/-- Edge-removal loop: repeatedly remove the first edge matching the
predicate, each removal following the normal edge-removal protocol, until
no matching edge remains.  The first argument bounds the number of
iterations; each iteration strictly shrinks the edge list, so a bound of
`g.edges.length` always suffices. -/
def removeEdgesWhereFuel : Nat → Graph → (Edge → Bool) → Graph
  | 0, g, _ => g
  | Nat.succ k, g, p =>
      match g.edges.find? p with
      | some e => removeEdgesWhereFuel k (removeEdgeCore g e) p
      | none => g

/-- Remove every edge matching the predicate, one protocol step at a
time. -/
def removeEdgesWhere (g : Graph) (p : Edge → Bool) : Graph :=
  removeEdgesWhereFuel g.edges.length g p

/-- Whether an edge is incident to a node, as source or destination. -/
def edgeTouches (n : Nat) (e : Edge) : Bool :=
  e.src == n || e.dst == Dest.node n

/-- Modelled from the spec: `removeNode(handle)` requires a valid, member
handle; it detaches all incident edges through the edge-removal protocol,
clears group membership, removes the node from the root cache, the node
list and the fast index, and fails with `TopologyError` when the handle is
expired or not a member. -/
def removeNode (g : Graph) (h : Option Nat) : Except TopologyError Graph :=
  match h with
  | none => Except.error ⟨"removeNode: expired weak node handle"⟩
  | some n =>
      if n ∈ g.nodes then
        let g1 := removeEdgesWhere g (edgeTouches n)
        Except.ok
          { g1 with
            nodes := containerRemove n g1.nodes,
            nodesSearch := containerRemove n g1.nodesSearch,
            rootNodes := containerRemove n g1.rootNodes,
            nodeGroup := g1.nodeGroup.filter (fun q => q.1 != n) }
      else Except.error ⟨"removeNode: node is not a member of graph"⟩

/-- Observation record delivered with the edge-insertion notification:
what an observer sees of the new edge at notification time. -/
structure EdgeNote where
  edgeInList : Bool
  edgeInIndex : Bool
deriving DecidableEq, Repr

/-- Modelled from the spec: `createEdge(source, destination)` validates
that both endpoints are member nodes (failing with `TopologyError`
otherwise, also on expired handles), constructs the edge, registers it as
the source out-edge and the destination in-edge, removes the destination
from the root cache since its in-degree becomes nonzero, inserts the edge
into the authoritative edge list and the fast index, then notifies
observers; the returned note records what the observer sees. -/
def createEdge (g : Graph) (source destination : Option Nat) :
    Except TopologyError (Graph × Nat × EdgeNote) :=
  match source, destination with
  | some s, some d =>
      if s ∈ g.nodes then
        if d ∈ g.nodes then
          let eid := g.nextEdgeId
          let e : Edge := ⟨eid, s, Dest.node d⟩
          let g' : Graph :=
            { g with
              edges := containerInsert e g.edges,
              edgesSearch := containerInsert eid g.edgesSearch,
              rootNodes := g.rootNodes.filter (fun m => m != d),
              nextEdgeId := eid + 1 }
          Except.ok
            (g', eid, ⟨decide (e ∈ g'.edges), decide (eid ∈ g'.edgesSearch)⟩)
        else Except.error ⟨"createEdge: destination is not a member of graph"⟩
      else Except.error ⟨"createEdge: source is not a member of graph"⟩
  | _, _ => Except.error ⟨"createEdge: expired source or destination handle"⟩

/-- Modelled from the spec: `createEdge(source, destination)` overload
whose destination is an edge (restricted hyperedge); both endpoints must
be present in the graph, and no node in-degree changes. -/
def createEdgeE (g : Graph) (source destination : Option Nat) :
    Except TopologyError (Graph × Nat) :=
  match source, destination with
  | some s, some i =>
      if s ∈ g.nodes then
        if i ∈ g.edgesSearch then
          let eid := g.nextEdgeId
          let e : Edge := ⟨eid, s, Dest.edge i⟩
          Except.ok
            ({ g with
               edges := containerInsert e g.edges,
               edgesSearch := containerInsert eid g.edgesSearch,
               nextEdgeId := eid + 1 }, eid)
        else Except.error ⟨"createEdge: destination edge is not a member of graph"⟩
      else Except.error ⟨"createEdge: source is not a member of graph"⟩
  | _, _ => Except.error ⟨"createEdge: expired source or destination handle"⟩

/-- Modelled from the spec: `insertEdge(edge)` adopts an externally
constructed edge that must already carry valid member endpoints and must
not be present yet; the invariant updates are the same as for
`createEdge`. -/
def insertEdge (g : Graph) (e : Edge) : Except TopologyError Graph :=
  if e.src ∈ g.nodes then
    match e.dst with
    | Dest.node d =>
        if d ∈ g.nodes then
          if e.id ∈ g.edgesSearch then
            Except.error ⟨"insertEdge: edge is already present in graph"⟩
          else
            Except.ok
              { g with
                edges := containerInsert e g.edges,
                edgesSearch := containerInsert e.id g.edgesSearch,
                rootNodes := g.rootNodes.filter (fun m => m != d) }
        else Except.error ⟨"insertEdge: destination is not a member of graph"⟩
    | Dest.edge i =>
        if i ∈ g.edgesSearch then
          if e.id ∈ g.edgesSearch then
            Except.error ⟨"insertEdge: edge is already present in graph"⟩
          else
            Except.ok
              { g with
                edges := containerInsert e g.edges,
                edgesSearch := containerInsert e.id g.edgesSearch }
        else Except.error ⟨"insertEdge: destination edge is not a member of graph"⟩
  else Except.error ⟨"insertEdge: source is not a member of graph"⟩

/-- Modelled from the spec: `removeEdge(source, destination)` removes the
first matching edge found by a linear scan of the edge list, following the
edge-removal protocol; it fails with `TopologyError` when a handle is
expired, an endpoint is not a member, or no such edge exists. -/
def removeEdge (g : Graph) (source destination : Option Nat) :
    Except TopologyError Graph :=
  match source, destination with
  | some s, some d =>
      if s ∈ g.nodes then
        if d ∈ g.nodes then
          match g.edges.find? (fun e => e.src == s && e.dst == Dest.node d) with
          | some e => Except.ok (removeEdgeCore g e)
          | none =>
              Except.error ⟨"removeEdge: no edge between source and destination"⟩
        else Except.error ⟨"removeEdge: destination is not a member of graph"⟩
      else Except.error ⟨"removeEdge: source is not a member of graph"⟩
  | _, _ => Except.error ⟨"removeEdge: expired source or destination handle"⟩

/-- Modelled from the spec: `removeEdge(edge)` removes a specific edge by
handle with the same bookkeeping, failing when the handle is expired or
the edge is not a member. -/
def removeEdgeById (g : Graph) (h : Option Nat) : Except TopologyError Graph :=
  match h with
  | none => Except.error ⟨"removeEdge: expired weak edge handle"⟩
  | some i =>
      match g.edges.find? (fun e => e.id == i) with
      | some e => Except.ok (removeEdgeCore g e)
      | none => Except.error ⟨"removeEdge: edge is not a member of graph"⟩

/-- Modelled from the spec: `removeAllEdges(source, destination)` removes
every matching edge between the pair with the same per-removal
bookkeeping, failing when a handle is expired, an endpoint is not a
member, or no such edge exists. -/
def removeAllEdges (g : Graph) (source destination : Option Nat) :
    Except TopologyError Graph :=
  match source, destination with
  | some s, some d =>
      if s ∈ g.nodes ∧ d ∈ g.nodes then
        if g.edges.any (fun e => e.src == s && e.dst == Dest.node d) then
          Except.ok
            (removeEdgesWhere g (fun e => e.src == s && e.dst == Dest.node d))
        else
          Except.error ⟨"removeAllEdges: no edge between source and destination"⟩
      else Except.error ⟨"removeAllEdges: source or destination is not a member"⟩
  | _, _ => Except.error ⟨"removeAllEdges: expired source or destination handle"⟩

/-- Modelled from the spec: `insertGroup(group)` adopts a group into the
authoritative group list. -/
def insertGroup (g : Graph) (gid : Nat) : Except TopologyError Graph :=
  if gid ∈ g.groups then
    Except.error ⟨"insertGroup: group is already present in graph"⟩
  else Except.ok { g with groups := containerInsert gid g.groups }

/-- Modelled from the spec: `createGroup()` constructs a fresh group and
inserts it. -/
def createGroup (g : Graph) : Except TopologyError (Graph × Nat) :=
  match insertGroup g g.nextGroupId with
  | Except.ok g' =>
      Except.ok ({ g' with nextGroupId := g.nextGroupId + 1 }, g.nextGroupId)
  | Except.error e => Except.error e

/-- Modelled from the spec: `removeGroup(handle)` detaches (ungroups)
every member node back into plain graph membership, then removes the group
from the authoritative list, failing with `TopologyError` when the handle
is invalid. -/
def removeGroup (g : Graph) (h : Option Nat) : Except TopologyError Graph :=
  match h with
  | none => Except.error ⟨"removeGroup: expired weak group handle"⟩
  | some gid =>
      if gid ∈ g.groups then
        Except.ok
          { g with
            groups := containerRemove gid g.groups,
            nodeGroup := g.nodeGroup.filter (fun q => q.2 != gid) }
      else Except.error ⟨"removeGroup: group is not a member of graph"⟩

/-- Modelled from the spec: grouping a node records its membership in a
member group; both handles must be valid members. -/
def groupNode (g : Graph) (h gh : Option Nat) : Except TopologyError Graph :=
  match h, gh with
  | some n, some gid =>
      if n ∈ g.nodes ∧ gid ∈ g.groups then
        Except.ok
          { g with
            nodeGroup := (g.nodeGroup.filter (fun q => q.1 != n)) ++ [(n, gid)] }
      else Except.error ⟨"groupNode: node or group is not a member of graph"⟩
  | _, _ => Except.error ⟨"groupNode: expired node or group handle"⟩

/-- Modelled from the spec: ungrouping a node clears its membership. -/
def ungroupNode (g : Graph) (h : Option Nat) : Except TopologyError Graph :=
  match h with
  | none => Except.error ⟨"ungroupNode: expired weak node handle"⟩
  | some n =>
      Except.ok { g with nodeGroup := g.nodeGroup.filter (fun q => q.1 != n) }

/-- Modelled from the spec: `installRootNode(handle)` fails with
`TopologyError` when the node in-degree is not zero (or the handle is
expired), and otherwise container-inserts the node into the root cache. -/
def installRootNode (g : Graph) (h : Option Nat) : Except TopologyError Graph :=
  match h with
  | none => Except.error ⟨"installRootNode: expired weak node handle"⟩
  | some n =>
      if inDegree g n = 0 then
        Except.ok { g with rootNodes := containerInsert n g.rootNodes }
      else
        Except.error ⟨"installRootNode: node has a positive in degree"⟩

/-- Modelled from the spec: `isRootNode(handle)` cross-checks root-cache
membership against the true in-degree, returning the membership when the
two agree and failing with `TopologyError` on a detected consistency
fault. -/
def isRootNode (g : Graph) (h : Option Nat) : Except TopologyError Bool :=
  match h with
  | none => Except.error ⟨"isRootNode: expired weak node handle"⟩
  | some n =>
      let cached := decide (n ∈ g.rootNodes)
      let degZero := decide (inDegree g n = 0)
      if cached == degZero then Except.ok cached
      else Except.error ⟨"isRootNode: root cache is inconsistent with in degree"⟩

/-- Observation record delivered with the clear notification: the counts
an observer sees at notification time. -/
structure ClearNote where
  behaviour : Nat
  nodeCount : Nat
  edgeCount : Nat
  groupCount : Nat
deriving DecidableEq, Repr

/-- Modelled from the spec: `clear()` removes every node except the
control nodes, every edge and every group, fires the clear notification to
each enabled behaviour after the topology is wiped (each note records the
counts the observer sees), then clears the behaviours. -/
def clear (g : Graph) : Graph × List ClearNote :=
  let survivors := g.nodes.filter (fun n => decide (n ∈ g.controlNodes))
  let g1 : Graph :=
    { g with
      nodes := survivors, nodesSearch := survivors, rootNodes := survivors,
      edges := [], edgesSearch := [], groups := [], nodeGroup := [] }
  let notes :=
    (g.behaviours.filter (fun b => b.enabled)).map
      (fun b => ⟨b.id, g1.nodes.length, g1.edges.length, g1.groups.length⟩)
  ({ g1 with behaviours := [] }, notes)

/-! The public mutating operations named by the root-cache invariant, and
the states reachable by any sequence of them. -/

/-- One public mutating operation among node insertion/removal, edge
creation/insertion/removal, group operations, control-node marking and
clear. -/
inductive Op where
  | createNode : Op
  | insertNode : Nat → Op
  | removeNode : Option Nat → Op
  | createEdge : Option Nat → Option Nat → Op
  | createEdgeE : Option Nat → Option Nat → Op
  | insertEdge : Edge → Op
  | removeEdge : Option Nat → Option Nat → Op
  | removeEdgeById : Option Nat → Op
  | removeAllEdges : Option Nat → Option Nat → Op
  | createGroup : Op
  | insertGroup : Nat → Op
  | removeGroup : Option Nat → Op
  | groupNode : Option Nat → Option Nat → Op
  | ungroupNode : Option Nat → Op
  | addControlNode : Nat → Op
  | removeControlNode : Nat → Op
  | clear : Op

/-- Apply one mutating operation; a failed operation raises before any
mutation and leaves the graph unchanged. -/
def applyOp (g : Graph) : Op → Graph
  | Op.createNode => okOr g ((createNode g).map (fun x => x.1))
  | Op.insertNode n => okOr g (insertNode g n)
  | Op.removeNode h => okOr g (removeNode g h)
  | Op.createEdge s d => okOr g ((createEdge g s d).map (fun x => x.1))
  | Op.createEdgeE s i => okOr g ((createEdgeE g s i).map (fun x => x.1))
  | Op.insertEdge e => okOr g (insertEdge g e)
  | Op.removeEdge s d => okOr g (removeEdge g s d)
  | Op.removeEdgeById h => okOr g (removeEdgeById g h)
  | Op.removeAllEdges s d => okOr g (removeAllEdges g s d)
  | Op.createGroup => okOr g ((createGroup g).map (fun x => x.1))
  | Op.insertGroup gid => okOr g (insertGroup g gid)
  | Op.removeGroup h => okOr g (removeGroup g h)
  | Op.groupNode h gh => okOr g (groupNode g h gh)
  | Op.ungroupNode h => okOr g (ungroupNode g h)
  | Op.addControlNode n => addControlNode g n
  | Op.removeControlNode n => removeControlNode g n
  | Op.clear => (clear g).1

/-- Graph states reachable from the empty graph by the public mutating
operations. -/
inductive Reachable : Graph → Prop where
  | init : Reachable emptyGraph
  | step : ∀ (g : Graph) (op : Op), Reachable g → Reachable (applyOp g op)

/-- The cross-cutting consistency invariant: the root-node cache holds
exactly the member nodes of in-degree zero, and every edge of the
authoritative edge list references member endpoints. -/
def Inv (g : Graph) : Prop :=
  (∀ n : Nat, n ∈ g.rootNodes ↔ (n ∈ g.nodes ∧ inDegree g n = 0)) ∧
  (∀ e ∈ g.edges, e.src ∈ g.nodes ∧ ∀ d : Nat, e.dst = Dest.node d → d ∈ g.nodes)

/-- Sample graph used to exercise the operations: two member nodes 0 and
1, two parallel edges 0 to 1, one group 7 containing node 1, control node
5, one enabled and one disabled behaviour. -/
def G1 : Graph :=
  { nodes := [0, 1], nodesSearch := [0, 1], rootNodes := [0],
    edges := [⟨0, 0, Dest.node 1⟩, ⟨1, 0, Dest.node 1⟩], edgesSearch := [0, 1],
    groups := [7], nodeGroup := [(1, 7)], controlNodes := [5],
    behaviours := [⟨3, true⟩, ⟨4, false⟩],
    nextNodeId := 2, nextEdgeId := 2, nextGroupId := 8 }

/-! Helper lemmas. -/

theorem removeEdgeCore_edges (g : Graph) (e : Edge) :
    (removeEdgeCore g e).edges = g.edges.erase e := rfl

theorem inDegree_congr (g g' : Graph) (h : g'.edges = g.edges) (n : Nat) :
    inDegree g' n = inDegree g n := by
  unfold inDegree; rw [h]

theorem length_filter_erase (l : List Edge) (e : Edge) (he : e ∈ l)
    (p : Edge → Bool) :
    (l.filter p).length =
      ((l.erase e).filter p).length + (if p e then 1 else 0) := by
  have hperm : l.Perm (e :: l.erase e) := List.perm_cons_erase he
  rw [(hperm.filter p).length_eq, List.filter_cons]
  split
  · simp [Nat.add_comm]
  · simp

theorem inDegree_erase (g : Graph) (e : Edge) (he : e ∈ g.edges) (m : Nat) :
    inDegree g m =
      ((g.edges.erase e).filter (fun x => x.dst == Dest.node m)).length +
        (if e.dst = Dest.node m then 1 else 0) := by
  unfold inDegree
  rw [length_filter_erase g.edges e he]
  congr 1
  by_cases h : e.dst = Dest.node m <;> simp [h]

theorem inDegree_zero_of_not_mem (g : Graph) (n : Nat)
    (hedge : ∀ e ∈ g.edges,
      e.src ∈ g.nodes ∧ ∀ d : Nat, e.dst = Dest.node d → d ∈ g.nodes)
    (hn : n ∉ g.nodes) : inDegree g n = 0 := by
  unfold inDegree
  rw [List.length_eq_zero, List.filter_eq_nil_iff]
  intro e hee hbe
  have hdd : e.dst = Dest.node n := by simpa using hbe
  exact hn ((hedge e hee).2 n hdd)

theorem inv_congr (g g' : Graph) (hn : g'.nodes = g.nodes)
    (he : g'.edges = g.edges) (hr : g'.rootNodes = g.rootNodes)
    (hg : Inv g) : Inv g' := by
  obtain ⟨h1, h2⟩ := hg
  constructor
  · intro m
    rw [hr, hn, inDegree_congr g g' he m]
    exact h1 m
  · intro e hee
    rw [he] at hee
    rw [hn]
    exact h2 e hee

theorem inv_removeEdgeCore (g : Graph) (e : Edge) (he : e ∈ g.edges)
    (hg : Inv g) : Inv (removeEdgeCore g e) := by
  obtain ⟨hroot, hedge⟩ := hg
  constructor
  · intro m
    show m ∈ (removeEdgeCore g e).rootNodes ↔
      m ∈ g.nodes ∧
        ((g.edges.erase e).filter (fun x => x.dst == Dest.node m)).length = 0
    cases hdst : e.dst with
    | node d =>
      have hdmem : d ∈ g.nodes := (hedge e he).2 d hdst
      have hcore : (removeEdgeCore g e).rootNodes =
          (if ((g.edges.erase e).filter
                (fun x => x.dst == Dest.node d)).length = 0 then
            containerInsert d g.rootNodes
          else g.rootNodes) := by
        simp [removeEdgeCore, hdst]
      rw [hcore]
      split
      next hD =>
        simp only [containerInsert, List.mem_append, List.mem_singleton]
        by_cases hm : m = d
        · subst hm
          constructor
          · intro _; exact ⟨hdmem, hD⟩
          · intro _; right; rfl
        · have hdm : e.dst ≠ Dest.node m := by
            rw [hdst]; intro hc; exact hm (Dest.node.injEq d m ▸ hc).symm
          have hEq : inDegree g m =
              ((g.edges.erase e).filter
                (fun x => x.dst == Dest.node m)).length := by
            rw [inDegree_erase g e he m, if_neg hdm, Nat.add_zero]
          constructor
          · intro hmem
            rcases hmem with hmem | hmem
            · have := (hroot m).mp hmem
              exact ⟨this.1, hEq ▸ this.2⟩
            · exact absurd hmem hm
          · intro hmem
            left
            exact (hroot m).mpr ⟨hmem.1, hEq.symm ▸ hmem.2⟩
      next hD =>
        by_cases hm : m = d
        · subst hm
          have h1 : inDegree g m =
              ((g.edges.erase e).filter
                (fun x => x.dst == Dest.node m)).length + 1 := by
            rw [inDegree_erase g e he m, if_pos hdst]
          rw [hroot m, h1]
          constructor
          · intro hmem; omega
          · intro hmem; exact absurd hmem.2 hD
        · have hdm : e.dst ≠ Dest.node m := by
            rw [hdst]; intro hc; exact hm (Dest.node.injEq d m ▸ hc).symm
          have hEq : inDegree g m =
              ((g.edges.erase e).filter
                (fun x => x.dst == Dest.node m)).length := by
            rw [inDegree_erase g e he m, if_neg hdm, Nat.add_zero]
          rw [hroot m, hEq]
    | edge i =>
      have hcore : (removeEdgeCore g e).rootNodes = g.rootNodes := by
        simp [removeEdgeCore, hdst]
      have hdm : e.dst ≠ Dest.node m := by rw [hdst]; intro hc; cases hc
      have hEq : inDegree g m =
          ((g.edges.erase e).filter
            (fun x => x.dst == Dest.node m)).length := by
        rw [inDegree_erase g e he m, if_neg hdm, Nat.add_zero]
      rw [hcore, hroot m, hEq]
  · intro x hx
    have hx' : x ∈ g.edges := List.erase_subset _ _ hx
    exact hedge x hx'

theorem inv_removeEdgesWhereFuel (p : Edge → Bool) :
    ∀ (k : Nat) (g : Graph), Inv g → Inv (removeEdgesWhereFuel k g p) := by
  intro k
  induction k with
  | zero => intro g hg; exact hg
  | succ k ih =>
    intro g hg
    unfold removeEdgesWhereFuel
    cases hf : g.edges.find? p with
    | some e =>
      exact ih _ (inv_removeEdgeCore g e (List.mem_of_find?_eq_some hf) hg)
    | none => exact hg

theorem noMatch_removeEdgesWhereFuel (p : Edge → Bool) :
    ∀ (k : Nat) (g : Graph), g.edges.length ≤ k →
      ∀ e ∈ (removeEdgesWhereFuel k g p).edges, p e = false := by
  intro k
  induction k with
  | zero =>
    intro g hk e hee
    have h0 : g.edges = [] := List.length_eq_zero.mp (Nat.le_zero.mp hk)
    simp only [removeEdgesWhereFuel] at hee
    rw [h0] at hee
    cases hee
  | succ k ih =>
    intro g hk e hee
    unfold removeEdgesWhereFuel at hee
    cases hf : g.edges.find? p with
    | some e' =>
      rw [hf] at hee
      have hmem := List.mem_of_find?_eq_some hf
      have hpos : 0 < g.edges.length := List.length_pos_of_mem hmem
      have hlen : (removeEdgeCore g e').edges.length ≤ k := by
        rw [removeEdgeCore_edges, List.length_erase_of_mem hmem]
        omega
      exact ih _ hlen e hee
    | none =>
      rw [hf] at hee
      have hall := List.find?_eq_none.mp hf
      simpa using hall e hee

theorem frame_removeEdgesWhereFuel (p : Edge → Bool) :
    ∀ (k : Nat) (g : Graph),
      (removeEdgesWhereFuel k g p).nodes = g.nodes ∧
      (removeEdgesWhereFuel k g p).nodesSearch = g.nodesSearch ∧
      (removeEdgesWhereFuel k g p).groups = g.groups ∧
      (removeEdgesWhereFuel k g p).nodeGroup = g.nodeGroup ∧
      (removeEdgesWhereFuel k g p).controlNodes = g.controlNodes ∧
      ∀ e ∈ (removeEdgesWhereFuel k g p).edges, e ∈ g.edges := by
  intro k
  induction k with
  | zero => intro g; exact ⟨rfl, rfl, rfl, rfl, rfl, fun e he => he⟩
  | succ k ih =>
    intro g
    unfold removeEdgesWhereFuel
    cases hf : g.edges.find? p with
    | some e' =>
      obtain ⟨h1, h2, h3, h4, h5, h6⟩ := ih (removeEdgeCore g e')
      refine ⟨h1.trans rfl, h2.trans rfl, h3.trans rfl, h4.trans rfl,
        h5.trans rfl, ?_⟩
      intro e he
      exact List.erase_subset _ _ (h6 e he)
    | none => exact ⟨rfl, rfl, rfl, rfl, rfl, fun e he => he⟩

theorem inv_insertNode (g : Graph) (n : Nat) (g' : Graph)
    (h : insertNode g n = Except.ok g') (hg : Inv g) : Inv g' := by
  obtain ⟨hroot, hedge⟩ := hg
  unfold insertNode at h
  split at h
  · exact absurd h (by simp)
  next hn =>
    injection h with h
    subst h
    constructor
    · intro m
      show m ∈ containerInsert n g.rootNodes ↔
        m ∈ containerInsert n g.nodes ∧ inDegree g m = 0
      simp only [containerInsert, List.mem_append, List.mem_singleton]
      by_cases hm : m = n
      · subst hm
        have h0 : inDegree g m = 0 := inDegree_zero_of_not_mem g m hedge hn
        simp [h0]
      · simp only [hm, or_false]
        exact hroot m
    · intro e hee
      have hfacts := hedge e hee
      constructor
      · show e.src ∈ containerInsert n g.nodes
        simp only [containerInsert, List.mem_append]
        exact Or.inl hfacts.1
      · intro d hd
        show d ∈ containerInsert n g.nodes
        simp only [containerInsert, List.mem_append]
        exact Or.inl (hfacts.2 d hd)

theorem inv_edgeAppended (g : Graph) (e : Edge) (d : Nat)
    (hdst : e.dst = Dest.node d) (hs : e.src ∈ g.nodes) (hdm : d ∈ g.nodes)
    (hg : Inv g) :
    ∀ g' : Graph, g'.nodes = g.nodes → g'.edges = g.edges ++ [e] →
      g'.rootNodes = g.rootNodes.filter (fun m => m != d) → Inv g' := by
  obtain ⟨hroot, hedge⟩ := hg
  intro g' h1 h2 h3
  have hdeg : ∀ m : Nat, inDegree g' m =
      inDegree g m + (if e.dst = Dest.node m then 1 else 0) := by
    intro m
    unfold inDegree
    rw [h2, List.filter_append]
    simp only [List.length_append]
    congr 1
    by_cases hc : e.dst = Dest.node m <;> simp [hc]
  constructor
  · intro m
    rw [h3, h1, hdeg m]
    by_cases hm : m = d
    · subst hm
      rw [if_pos hdst]
      simp [List.mem_filter]
    · rw [if_neg (by rw [hdst]; intro hc; exact hm (Dest.node.injEq d m ▸ hc).symm)]
      simp only [List.mem_filter, bne_iff_ne, ne_eq, hm, not_false_iff, and_true,
        Nat.add_zero]
      exact hroot m
  · intro x hx
    rw [h2, List.mem_append, List.mem_singleton] at hx
    rw [h1]
    rcases hx with hx | hx
    · exact hedge x hx
    · subst hx
      refine ⟨hs, ?_⟩
      intro d' hd'
      rw [hdst] at hd'
      have : d = d' := by injection hd'
      exact this ▸ hdm

theorem inv_hyperedgeAppended (g : Graph) (e : Edge) (i : Nat)
    (hdst : e.dst = Dest.edge i) (hs : e.src ∈ g.nodes) (hg : Inv g) :
    ∀ g' : Graph, g'.nodes = g.nodes → g'.edges = g.edges ++ [e] →
      g'.rootNodes = g.rootNodes → Inv g' := by
  obtain ⟨hroot, hedge⟩ := hg
  intro g' h1 h2 h3
  have hdeg : ∀ m : Nat, inDegree g' m = inDegree g m := by
    intro m
    unfold inDegree
    rw [h2, List.filter_append]
    have : [e].filter (fun x => x.dst == Dest.node m) = [] := by
      simp [hdst]
    rw [this]
    simp
  constructor
  · intro m
    rw [h3, h1, hdeg m]
    exact hroot m
  · intro x hx
    rw [h2, List.mem_append, List.mem_singleton] at hx
    rw [h1]
    rcases hx with hx | hx
    · exact hedge x hx
    · subst hx
      refine ⟨hs, ?_⟩
      intro d' hd'
      rw [hdst] at hd'
      cases hd'

theorem inv_removeNodeCleanup (g1 : Graph) (n : Nat) (hg1 : Inv g1)
    (hnot : ∀ e ∈ g1.edges, edgeTouches n e = false) :
    Inv { g1 with
          nodes := containerRemove n g1.nodes,
          nodesSearch := containerRemove n g1.nodesSearch,
          rootNodes := containerRemove n g1.rootNodes,
          nodeGroup := g1.nodeGroup.filter (fun q => q.1 != n) } := by
  obtain ⟨hroot, hedge⟩ := hg1
  constructor
  · intro m
    show m ∈ containerRemove n g1.rootNodes ↔
      m ∈ containerRemove n g1.nodes ∧ inDegree g1 m = 0
    simp only [containerRemove, List.mem_filter, bne_iff_ne, ne_eq]
    rw [hroot m]
    tauto
  · intro e hee
    have hne := hnot e hee
    unfold edgeTouches at hne
    rw [Bool.or_eq_false_iff] at hne
    obtain ⟨hbs, hbd⟩ := hne
    have hsrc : e.src ≠ n := by simpa using hbs
    have hdst : e.dst ≠ Dest.node n := by simpa using hbd
    have hfacts := hedge e hee
    constructor
    · show e.src ∈ containerRemove n g1.nodes
      simp only [containerRemove, List.mem_filter, bne_iff_ne, ne_eq]
      exact ⟨hfacts.1, hsrc⟩
    · intro d hd
      show d ∈ containerRemove n g1.nodes
      have hdn : d ≠ n := by
        intro hc
        subst hc
        exact hdst hd
      simp only [containerRemove, List.mem_filter, bne_iff_ne, ne_eq]
      exact ⟨hfacts.2 d hd, hdn⟩

theorem inv_clear (g : Graph) (_hg : Inv g) : Inv (clear g).1 := by
  constructor
  · intro m
    show m ∈ g.nodes.filter (fun n => decide (n ∈ g.controlNodes)) ↔
      m ∈ g.nodes.filter (fun n => decide (n ∈ g.controlNodes)) ∧
        inDegree (clear g).1 m = 0
    have hdeg : inDegree (clear g).1 m = 0 := rfl
    simp [hdeg]
  · intro e hee
    cases hee

theorem inv_okOr (g : Graph) (r : Except TopologyError Graph)
    (h : ∀ g', r = Except.ok g' → Inv g') (hg : Inv g) : Inv (okOr g r) := by
  cases r with
  | ok g' => exact h g' rfl
  | error e => exact hg

theorem inv_removeNode_ok (g : Graph) (h : Option Nat) (g' : Graph)
    (hres : removeNode g h = Except.ok g') (hg : Inv g) : Inv g' := by
  cases h with
  | none => exact absurd hres (by simp [removeNode])
  | some n =>
    simp only [removeNode] at hres
    split at hres
    next hn =>
      injection hres with hres
      subst hres
      exact inv_removeNodeCleanup _ n
        (inv_removeEdgesWhereFuel (edgeTouches n) g.edges.length g hg)
        (noMatch_removeEdgesWhereFuel (edgeTouches n) g.edges.length g le_rfl)
    next hn => exact absurd hres (by simp)

theorem inv_createEdge_ok (g : Graph) (s d : Option Nat)
    (x : Graph × Nat × EdgeNote) (hres : createEdge g s d = Except.ok x)
    (hg : Inv g) : Inv x.1 := by
  cases s with
  | none => exact absurd hres (by simp [createEdge])
  | some s' =>
    cases d with
    | none => exact absurd hres (by simp [createEdge])
    | some d' =>
      simp only [createEdge] at hres
      split at hres
      next hs =>
        split at hres
        next hd =>
          injection hres with hres
          subst hres
          exact inv_edgeAppended g ⟨g.nextEdgeId, s', Dest.node d'⟩ d' rfl hs hd
            hg _ rfl rfl rfl
        next hd => exact absurd hres (by simp)
      next hs => exact absurd hres (by simp)

theorem inv_createEdgeE_ok (g : Graph) (s i : Option Nat) (x : Graph × Nat)
    (hres : createEdgeE g s i = Except.ok x) (hg : Inv g) : Inv x.1 := by
  cases s with
  | none => exact absurd hres (by simp [createEdgeE])
  | some s' =>
    cases i with
    | none => exact absurd hres (by simp [createEdgeE])
    | some i' =>
      simp only [createEdgeE] at hres
      split at hres
      next hs =>
        split at hres
        next hi =>
          injection hres with hres
          subst hres
          exact inv_hyperedgeAppended g ⟨g.nextEdgeId, s', Dest.edge i'⟩ i' rfl
            hs hg _ rfl rfl rfl
        next hi => exact absurd hres (by simp)
      next hs => exact absurd hres (by simp)

theorem inv_insertEdge_ok (g : Graph) (e : Edge) (g' : Graph)
    (hres : insertEdge g e = Except.ok g') (hg : Inv g) : Inv g' := by
  simp only [insertEdge] at hres
  split at hres
  next hs =>
    split at hres
    next d hdst =>
      split at hres
      next hd =>
        split at hres
        next hid => exact absurd hres (by simp)
        next hid =>
          injection hres with hres
          subst hres
          exact inv_edgeAppended g e d hdst hs hd hg _ rfl rfl rfl
      next hd => exact absurd hres (by simp)
    next i hdst =>
      split at hres
      next hi =>
        split at hres
        next hid => exact absurd hres (by simp)
        next hid =>
          injection hres with hres
          subst hres
          exact inv_hyperedgeAppended g e i hdst hs hg _ rfl rfl rfl
      next hi => exact absurd hres (by simp)
  next hs => exact absurd hres (by simp)

theorem inv_removeEdge_ok (g : Graph) (s d : Option Nat) (g' : Graph)
    (hres : removeEdge g s d = Except.ok g') (hg : Inv g) : Inv g' := by
  cases s with
  | none => exact absurd hres (by simp [removeEdge])
  | some s' =>
    cases d with
    | none => exact absurd hres (by simp [removeEdge])
    | some d' =>
      simp only [removeEdge] at hres
      split at hres
      next hs =>
        split at hres
        next hd =>
          split at hres
          next e heq =>
            injection hres with hres
            subst hres
            exact inv_removeEdgeCore g e (List.mem_of_find?_eq_some heq) hg
          next heq => exact absurd hres (by simp)
        next hd => exact absurd hres (by simp)
      next hs => exact absurd hres (by simp)

theorem inv_removeEdgeById_ok (g : Graph) (h : Option Nat) (g' : Graph)
    (hres : removeEdgeById g h = Except.ok g') (hg : Inv g) : Inv g' := by
  cases h with
  | none => exact absurd hres (by simp [removeEdgeById])
  | some i =>
    simp only [removeEdgeById] at hres
    split at hres
    next e heq =>
      injection hres with hres
      subst hres
      exact inv_removeEdgeCore g e (List.mem_of_find?_eq_some heq) hg
    next heq => exact absurd hres (by simp)

theorem inv_removeAllEdges_ok (g : Graph) (s d : Option Nat) (g' : Graph)
    (hres : removeAllEdges g s d = Except.ok g') (hg : Inv g) : Inv g' := by
  cases s with
  | none => exact absurd hres (by simp [removeAllEdges])
  | some s' =>
    cases d with
    | none => exact absurd hres (by simp [removeAllEdges])
    | some d' =>
      simp only [removeAllEdges] at hres
      split at hres
      next hmem =>
        split at hres
        next hany =>
          injection hres with hres
          subst hres
          exact inv_removeEdgesWhereFuel _ g.edges.length g hg
        next hany => exact absurd hres (by simp)
      next hmem => exact absurd hres (by simp)

theorem inv_insertGroup_ok (g : Graph) (gid : Nat) (g' : Graph)
    (hres : insertGroup g gid = Except.ok g') (hg : Inv g) : Inv g' := by
  simp only [insertGroup] at hres
  split at hres
  · exact absurd hres (by simp)
  · injection hres with hres
    subst hres
    exact inv_congr g _ rfl rfl rfl hg

theorem inv_removeGroup_ok (g : Graph) (h : Option Nat) (g' : Graph)
    (hres : removeGroup g h = Except.ok g') (hg : Inv g) : Inv g' := by
  cases h with
  | none => exact absurd hres (by simp [removeGroup])
  | some gid =>
    simp only [removeGroup] at hres
    split at hres
    · injection hres with hres
      subst hres
      exact inv_congr g _ rfl rfl rfl hg
    · exact absurd hres (by simp)

theorem inv_groupNode_ok (g : Graph) (h gh : Option Nat) (g' : Graph)
    (hres : groupNode g h gh = Except.ok g') (hg : Inv g) : Inv g' := by
  cases h with
  | none => exact absurd hres (by simp [groupNode])
  | some n =>
    cases gh with
    | none => exact absurd hres (by simp [groupNode])
    | some gid =>
      simp only [groupNode] at hres
      split at hres
      · injection hres with hres
        subst hres
        exact inv_congr g _ rfl rfl rfl hg
      · exact absurd hres (by simp)

theorem inv_ungroupNode_ok (g : Graph) (h : Option Nat) (g' : Graph)
    (hres : ungroupNode g h = Except.ok g') (hg : Inv g) : Inv g' := by
  cases h with
  | none => exact absurd hres (by simp [ungroupNode])
  | some n =>
    simp only [ungroupNode] at hres
    injection hres with hres
    subst hres
    exact inv_congr g _ rfl rfl rfl hg

theorem inv_applyOp (g : Graph) (op : Op) (hg : Inv g) : Inv (applyOp g op) := by
  cases op with
  | createNode =>
    show Inv (okOr g ((createNode g).map (fun x => x.1)))
    cases hres : insertNode g g.nextNodeId with
    | ok g' =>
      have hc : createNode g =
          Except.ok ({ g' with nextNodeId := g.nextNodeId + 1 }, g.nextNodeId) := by
        unfold createNode
        rw [hres]
      rw [hc]
      exact inv_congr g' _ rfl rfl rfl (inv_insertNode g _ g' hres hg)
    | error e =>
      have hc : createNode g = Except.error e := by
        unfold createNode
        rw [hres]
      rw [hc]
      exact hg
  | insertNode n =>
    exact inv_okOr g _ (fun g' hres => inv_insertNode g n g' hres hg) hg
  | removeNode h =>
    exact inv_okOr g _ (fun g' hres => inv_removeNode_ok g h g' hres hg) hg
  | createEdge s d =>
    show Inv (okOr g ((createEdge g s d).map (fun x => x.1)))
    cases hres : createEdge g s d with
    | ok x => exact inv_createEdge_ok g s d x hres hg
    | error e => exact hg
  | createEdgeE s i =>
    show Inv (okOr g ((createEdgeE g s i).map (fun x => x.1)))
    cases hres : createEdgeE g s i with
    | ok x => exact inv_createEdgeE_ok g s i x hres hg
    | error e => exact hg
  | insertEdge e =>
    exact inv_okOr g _ (fun g' hres => inv_insertEdge_ok g e g' hres hg) hg
  | removeEdge s d =>
    exact inv_okOr g _ (fun g' hres => inv_removeEdge_ok g s d g' hres hg) hg
  | removeEdgeById h =>
    exact inv_okOr g _ (fun g' hres => inv_removeEdgeById_ok g h g' hres hg) hg
  | removeAllEdges s d =>
    exact inv_okOr g _ (fun g' hres => inv_removeAllEdges_ok g s d g' hres hg) hg
  | createGroup =>
    show Inv (okOr g ((createGroup g).map (fun x => x.1)))
    cases hres : insertGroup g g.nextGroupId with
    | ok g' =>
      have hc : createGroup g =
          Except.ok ({ g' with nextGroupId := g.nextGroupId + 1 }, g.nextGroupId) := by
        unfold createGroup
        rw [hres]
      rw [hc]
      exact inv_congr g' _ rfl rfl rfl (inv_insertGroup_ok g _ g' hres hg)
    | error e =>
      have hc : createGroup g = Except.error e := by
        unfold createGroup
        rw [hres]
      rw [hc]
      exact hg
  | insertGroup gid =>
    exact inv_okOr g _ (fun g' hres => inv_insertGroup_ok g gid g' hres hg) hg
  | removeGroup h =>
    exact inv_okOr g _ (fun g' hres => inv_removeGroup_ok g h g' hres hg) hg
  | groupNode h gh =>
    exact inv_okOr g _ (fun g' hres => inv_groupNode_ok g h gh g' hres hg) hg
  | ungroupNode h =>
    exact inv_okOr g _ (fun g' hres => inv_ungroupNode_ok g h g' hres hg) hg
  | addControlNode n =>
    exact inv_congr g _ rfl rfl rfl hg
  | removeControlNode n =>
    exact inv_congr g _ rfl rfl rfl hg
  | clear =>
    exact inv_clear g hg

theorem reachable_inv (g : Graph) (h : Reachable g) : Inv g := by
  induction h with
  | init =>
    constructor
    · intro n
      simp [emptyGraph, inDegree]
    · intro e hee
      simp [emptyGraph] at hee
  | step g' op hr ih => exact inv_applyOp g' op ih

/-! Claim theorems. -/

/-- C1: for every graph state reachable by any sequence of the public
mutating operations (node insertion/removal, edge
creation/insertion/removal, group operations, clear), the root-node cache
holds exactly the nodes of the authoritative node list whose in-degree is
zero. -/
theorem rootCache_equivalence (g : Graph) (h : Reachable g) (n : Nat) :
    n ∈ g.rootNodes ↔ (n ∈ g.nodes ∧ inDegree g n = 0) :=
  (reachable_inv g h).1 n

/-- Witness for C1 at a concrete reachable state: two inserted nodes and
one created edge between them. -/
theorem rootCache_equivalence_wit :
    1 ∈ (applyOp (applyOp (applyOp emptyGraph (Op.insertNode 1))
        (Op.insertNode 2)) (Op.createEdge (some 1) (some 2))).rootNodes ↔
      (1 ∈ (applyOp (applyOp (applyOp emptyGraph (Op.insertNode 1))
          (Op.insertNode 2)) (Op.createEdge (some 1) (some 2))).nodes ∧
        inDegree (applyOp (applyOp (applyOp emptyGraph (Op.insertNode 1))
          (Op.insertNode 2)) (Op.createEdge (some 1) (some 2))) 1 = 0) :=
  rootCache_equivalence _
    (Reachable.step _ _ (Reachable.step _ _ (Reachable.step _ _ Reachable.init)))
    1

/-- C2 counter-evidence: on the code, `removeControlNode` inserts the node
into the control-node container (its body is identical to
`addControlNode`), so a marked node stays marked: starting from a graph
whose control-node list is `[5]`, removing control node 5 leaves the list
`[5, 5]`, and 5 is still a control node. -/
theorem removeControlNode_keeps_marking :
    5 ∈ (removeControlNode (addControlNode emptyGraph 5) 5).controlNodes ∧
    (removeControlNode (addControlNode emptyGraph 5) 5).controlNodes = [5, 5] :=
  ⟨by decide, rfl⟩

/-- C3: after `clear()` the edge and group lists are empty and exactly the
control nodes remain in the node list; the clear notification is delivered
to each enabled behaviour exactly once (one note per enabled behaviour, in
order), and every delivered note observes the already-wiped topology. -/
theorem clear_spec (g : Graph) :
    (clear g).1.edges = [] ∧ (clear g).1.groups = [] ∧
    (∀ n : Nat, n ∈ (clear g).1.nodes ↔ (n ∈ g.nodes ∧ n ∈ g.controlNodes)) ∧
    (clear g).2 =
      (g.behaviours.filter (fun b => b.enabled)).map
        (fun b => ⟨b.id, (clear g).1.nodes.length, 0, 0⟩) ∧
    (∀ note ∈ (clear g).2,
      note.edgeCount = 0 ∧ note.groupCount = 0 ∧
        note.nodeCount = (clear g).1.nodes.length) := by
  refine ⟨rfl, rfl, ?_, rfl, ?_⟩
  · intro n
    show n ∈ g.nodes.filter (fun n => decide (n ∈ g.controlNodes)) ↔ _
    simp [List.mem_filter]
  · intro note hmem
    show note.edgeCount = 0 ∧ note.groupCount = 0 ∧
      note.nodeCount = (g.nodes.filter (fun n => decide (n ∈ g.controlNodes))).length
    simp only [clear, List.mem_map] at hmem
    obtain ⟨b, hb, hnote⟩ := hmem
    rw [← hnote]
    exact ⟨rfl, rfl, rfl⟩

/-- Witness for C3: on the sample graph the single enabled behaviour 3
receives exactly one clear note observing zero counts. -/
theorem clear_spec_wit :
    (⟨3, 0, 0, 0⟩ : ClearNote).edgeCount = 0 ∧
    (⟨3, 0, 0, 0⟩ : ClearNote).groupCount = 0 ∧
    (⟨3, 0, 0, 0⟩ : ClearNote).nodeCount = (clear G1).1.nodes.length :=
  (clear_spec G1).2.2.2.2 ⟨3, 0, 0, 0⟩ (by decide)

/-- C10: `getEdgeCount()` converts the edge-list size through a signed
32-bit `int` to `unsigned int` and `getGroupCount()` returns the
group-list size as a signed 32-bit `int`; for at most `2^31 - 1` elements
the returned value equals the true count, and in general the returned
value is the count truncated to 32 bits. -/
theorem count_cast_spec (g : Graph) :
    (g.edges.length ≤ 2 ^ 31 - 1 → getEdgeCount g = g.edges.length) ∧
    (g.groups.length ≤ 2 ^ 31 - 1 → getGroupCount g = (g.groups.length : Int)) ∧
    getEdgeCount g = g.edges.length % 2 ^ 32 ∧
    getGroupCount g % (2 ^ 32 : Int) = (g.groups.length : Int) % 2 ^ 32 := by
  unfold getEdgeCount getGroupCount intCast32 uintCast32
  refine ⟨fun h => ?_, fun h => ?_, ?_, ?_⟩ <;> split <;> omega

/-- Witness for C10 on the sample graph: two edges and one group are
reported exactly. -/
theorem count_cast_spec_wit :
    getEdgeCount G1 = G1.edges.length ∧ getGroupCount G1 = (G1.groups.length : Int) :=
  ⟨(count_cast_spec G1).1 (by decide), (count_cast_spec G1).2.1 (by decide)⟩

/-- C4: for a member node, `removeNode` succeeds, removes every edge
incident to the node (no remaining edge references it as source or
destination, and every remaining edge was already present), and clears its
group membership; it fails with `TopologyError` on an expired handle or a
non-member node. -/
theorem removeNode_spec (g : Graph) (n : Nat) :
    (n ∈ g.nodes →
      resOk (removeNode g (some n)) = true ∧
      (∀ e ∈ (okOr g (removeNode g (some n))).edges,
        e.src ≠ n ∧ e.dst ≠ Dest.node n) ∧
      (∀ e ∈ (okOr g (removeNode g (some n))).edges, e ∈ g.edges) ∧
      groupOf (okOr g (removeNode g (some n))) n = none) ∧
    resOk (removeNode g none) = false ∧
    (n ∉ g.nodes → resOk (removeNode g (some n)) = false) := by
  refine ⟨?_, rfl, ?_⟩
  · intro hn
    simp only [removeNode]
    rw [if_pos hn]
    refine ⟨rfl, ?_, ?_, ?_⟩
    · intro e hee
      have hm := noMatch_removeEdgesWhereFuel (edgeTouches n) g.edges.length g
        le_rfl e hee
      unfold edgeTouches at hm
      rw [Bool.or_eq_false_iff] at hm
      exact ⟨by simpa using hm.1, by simpa using hm.2⟩
    · intro e hee
      exact (frame_removeEdgesWhereFuel (edgeTouches n) g.edges.length g).2.2.2.2.2
        e hee
    · show (((removeEdgesWhere g (edgeTouches n)).nodeGroup.filter
          (fun q => q.1 != n)).find? (fun q => q.1 == n)).map (fun q => q.2)
        = none
      rw [Option.map_eq_none', List.find?_eq_none]
      intro q hq
      rw [List.mem_filter] at hq
      simpa using hq.2
  · intro hn
    simp [removeNode, hn, resOk]

/-- Witness for C4 on the sample graph: removing member node 1
succeeds. -/
theorem removeNode_spec_wit : resOk (removeNode G1 (some 1)) = true :=
  ((removeNode_spec G1 1).1 (by decide)).1

/-- C5: `createEdge` fails with `TopologyError` exactly when an endpoint
handle is expired or not a member, for both the node-destination and the
edge-destination overloads; on success the new edge is registered as the
source out-edge and the destination in-edge (both degrees increase by
one), the destination leaves the root cache, and the edge is inserted into
the authoritative edge list and the fast index before observers are
notified (the delivered note observes both insertions). -/
theorem createEdge_spec (g : Graph) (s d i : Nat) :
    (resOk (createEdge g (some s) (some d)) = false ↔
      ¬(s ∈ g.nodes ∧ d ∈ g.nodes)) ∧
    (resOk (createEdgeE g (some s) (some i)) = false ↔
      ¬(s ∈ g.nodes ∧ i ∈ g.edgesSearch)) ∧
    resOk (createEdge g none (some d)) = false ∧
    resOk (createEdge g (some s) none) = false ∧
    resOk (createEdgeE g none (some i)) = false ∧
    resOk (createEdgeE g (some s) none) = false ∧
    (s ∈ g.nodes → d ∈ g.nodes →
      ∀ x, createEdge g (some s) (some d) = Except.ok x →
        x.2.1 = g.nextEdgeId ∧
        outDegree x.1 s = outDegree g s + 1 ∧
        inDegree x.1 d = inDegree g d + 1 ∧
        d ∉ x.1.rootNodes ∧
        Edge.mk g.nextEdgeId s (Dest.node d) ∈ x.1.edges ∧
        g.nextEdgeId ∈ x.1.edgesSearch ∧
        x.2.2.edgeInList = true ∧ x.2.2.edgeInIndex = true) ∧
    (s ∈ g.nodes → d ∈ g.nodes →
      resOk (createEdge g (some s) (some d)) = true) := by
  refine ⟨?_, ?_, rfl, rfl, rfl, rfl, ?_, ?_⟩
  · by_cases hs : s ∈ g.nodes
    · by_cases hd : d ∈ g.nodes
      · simp [createEdge, hs, hd, resOk]
      · simp [createEdge, hs, hd, resOk]
    · simp [createEdge, hs, resOk]
  · by_cases hs : s ∈ g.nodes
    · by_cases hi : i ∈ g.edgesSearch
      · simp [createEdgeE, hs, hi, resOk]
      · simp [createEdgeE, hs, hi, resOk]
    · simp [createEdgeE, hs, resOk]
  · intro hs hd x hx
    simp only [createEdge] at hx
    rw [if_pos hs, if_pos hd] at hx
    injection hx with hx
    subst hx
    refine ⟨rfl, ?_, ?_, ?_, ?_, ?_, ?_, ?_⟩
    · show ((containerInsert (Edge.mk g.nextEdgeId s (Dest.node d)) g.edges).filter
          (fun e => e.src == s)).length = outDegree g s + 1
      simp [containerInsert, List.filter_append, outDegree]
    · show ((containerInsert (Edge.mk g.nextEdgeId s (Dest.node d)) g.edges).filter
          (fun e => e.dst == Dest.node d)).length = inDegree g d + 1
      simp [containerInsert, List.filter_append, inDegree]
    · show d ∉ g.rootNodes.filter (fun m => m != d)
      simp [List.mem_filter]
    · show Edge.mk g.nextEdgeId s (Dest.node d) ∈
        containerInsert (Edge.mk g.nextEdgeId s (Dest.node d)) g.edges
      simp [containerInsert]
    · show g.nextEdgeId ∈ containerInsert g.nextEdgeId g.edgesSearch
      simp [containerInsert]
    · show decide (Edge.mk g.nextEdgeId s (Dest.node d) ∈
        containerInsert (Edge.mk g.nextEdgeId s (Dest.node d)) g.edges) = true
      simp [containerInsert]
    · show decide (g.nextEdgeId ∈ containerInsert g.nextEdgeId g.edgesSearch) = true
      simp [containerInsert]
  · intro hs hd
    simp [createEdge, hs, hd, resOk]

/-- Witness for C5 on the sample graph: creating an edge between member
nodes 0 and 1 succeeds. -/
theorem createEdge_spec_wit : resOk (createEdge G1 (some 0) (some 1)) = true :=
  (createEdge_spec G1 0 1 0).2.2.2.2.2.2.2 (by decide) (by decide)

/-- C6: with member endpoints and at least one edge from source to
destination, `removeEdge` removes exactly the first matching edge found by
the linear scan (one edge fewer, even with parallel edges), decrements the
destination in-degree by one, and restores the destination into the root
cache when its in-degree returns to zero; with no matching edge it fails
with `TopologyError`. -/
theorem removeEdge_first_match (g : Graph) (s d : Nat) (e : Edge)
    (hs : s ∈ g.nodes) (hd : d ∈ g.nodes) :
    (g.edges.find? (fun x => x.src == s && x.dst == Dest.node d) = some e →
      removeEdge g (some s) (some d) = Except.ok (removeEdgeCore g e) ∧
      (removeEdgeCore g e).edges = g.edges.erase e ∧
      (removeEdgeCore g e).edges.length + 1 = g.edges.length ∧
      inDegree (removeEdgeCore g e) d + 1 = inDegree g d ∧
      (inDegree (removeEdgeCore g e) d = 0 →
        d ∈ (removeEdgeCore g e).rootNodes)) ∧
    (g.edges.find? (fun x => x.src == s && x.dst == Dest.node d) = none →
      resOk (removeEdge g (some s) (some d)) = false) := by
  constructor
  · intro hf
    have hmem : e ∈ g.edges := List.mem_of_find?_eq_some hf
    have hpe := List.find?_some hf
    rw [Bool.and_eq_true] at hpe
    have hdst : e.dst = Dest.node d := by simpa using hpe.2
    have hcored : inDegree (removeEdgeCore g e) d =
        ((g.edges.erase e).filter (fun x => x.dst == Dest.node d)).length := rfl
    refine ⟨?_, rfl, ?_, ?_, ?_⟩
    · simp only [removeEdge]
      rw [if_pos hs, if_pos hd, hf]
    · rw [removeEdgeCore_edges, List.length_erase_of_mem hmem]
      have := List.length_pos_of_mem hmem
      omega
    · have hEq : inDegree g d =
          ((g.edges.erase e).filter (fun x => x.dst == Dest.node d)).length + 1 := by
        rw [inDegree_erase g e hmem d, if_pos hdst]
      rw [hcored, hEq]
    · intro h0
      rw [hcored] at h0
      have hroots : (removeEdgeCore g e).rootNodes =
          containerInsert d g.rootNodes := by
        simp [removeEdgeCore, hdst, h0]
      rw [hroots]
      simp [containerInsert]
  · intro hf
    simp only [removeEdge]
    rw [if_pos hs, if_pos hd, hf]
    rfl

/-- Witness for C6 on the sample graph with two parallel edges from 0 to
1: the removal returns the protocol step applied to the first match. -/
theorem removeEdge_first_match_wit :
    removeEdge G1 (some 0) (some 1) =
      Except.ok (removeEdgeCore G1 (Edge.mk 0 0 (Dest.node 1))) :=
  ((removeEdge_first_match G1 0 1 (Edge.mk 0 0 (Dest.node 1)) (by decide)
    (by decide)).1 (by decide)).1

/-- C7: removing a member group succeeds, leaves every node of the graph
present (the node list and the `contains` fast index are untouched),
clears the membership of every node grouped in it (for states whose
membership records carry one entry per node), and removes the group from
the authoritative group list; an expired group handle fails with
`TopologyError`. -/
theorem removeGroup_preserves_members (g : Graph) (gid : Nat) :
    (gid ∈ g.groups →
      resOk (removeGroup g (some gid)) = true ∧
      (okOr g (removeGroup g (some gid))).nodes = g.nodes ∧
      (∀ n : Nat, containsNode g (some n) = true →
        containsNode (okOr g (removeGroup g (some gid))) (some n) = true) ∧
      ((g.nodeGroup.map Prod.fst).Nodup →
        ∀ n : Nat, groupOf g n = some gid →
          groupOf (okOr g (removeGroup g (some gid))) n = none) ∧
      (∀ n : Nat, groupOf (okOr g (removeGroup g (some gid))) n ≠ some gid) ∧
      gid ∉ (okOr g (removeGroup g (some gid))).groups) ∧
    resOk (removeGroup g none) = false := by
  refine ⟨?_, rfl⟩
  intro hmem
  simp only [removeGroup]
  rw [if_pos hmem]
  refine ⟨rfl, rfl, ?_, ?_, ?_, ?_⟩
  · intro n hn
    exact hn
  · intro hnd n hgn
    simp only [groupOf, Option.map_eq_some'] at hgn
    obtain ⟨q0, hf, hq2⟩ := hgn
    have hq0mem := List.mem_of_find?_eq_some hf
    have hq0key : q0.1 = n := by simpa using List.find?_some hf
    show ((g.nodeGroup.filter (fun q => q.2 != gid)).find?
        (fun q => q.1 == n)).map (fun q => q.2) = none
    rw [Option.map_eq_none', List.find?_eq_none]
    intro q hq
    rw [List.mem_filter] at hq
    obtain ⟨hqmem, hqg⟩ := hq
    intro hqn
    have hqn' : q.1 = n := by simpa using hqn
    have hqq0 : q = q0 :=
      List.inj_on_of_nodup_map hnd hqmem hq0mem (hqn'.trans hq0key.symm)
    rw [hqq0, hq2] at hqg
    simp at hqg
  · intro n hc
    simp only [groupOf, Option.map_eq_some'] at hc
    obtain ⟨q0, hf, hq2⟩ := hc
    have hq0mem := List.mem_of_find?_eq_some hf
    simp only [okOr] at hq0mem
    rw [List.mem_filter] at hq0mem
    rw [hq2] at hq0mem
    simp at hq0mem
  · show gid ∉ containerRemove gid g.groups
    simp [containerRemove, List.mem_filter]

/-- Witness for C7 on the sample graph: node 1 is grouped in member group
7; after removing the group its membership is cleared. -/
theorem removeGroup_preserves_members_wit :
    groupOf (okOr G1 (removeGroup G1 (some 7))) 1 = none :=
  ((removeGroup_preserves_members G1 7).1 (by decide)).2.2.2.1 (by decide) 1
    (by decide)

/-- C8: `installRootNode` fails with `TopologyError` exactly when the node
in-degree is nonzero, and otherwise adds the node to the root cache;
`isRootNode` returns the cached membership when cache membership and true
in-degree agree, and fails with `TopologyError` (instead of returning a
normal negative result) when they disagree. -/
theorem rootNode_check_spec (g : Graph) (n : Nat) :
    (inDegree g n ≠ 0 → resOk (installRootNode g (some n)) = false) ∧
    (inDegree g n = 0 →
      resOk (installRootNode g (some n)) = true ∧
      n ∈ (okOr g (installRootNode g (some n))).rootNodes) ∧
    ((n ∈ g.rootNodes ↔ inDegree g n = 0) →
      isRootNode g (some n) = Except.ok (decide (n ∈ g.rootNodes))) ∧
    (¬(n ∈ g.rootNodes ↔ inDegree g n = 0) →
      resOk (isRootNode g (some n)) = false) := by
  refine ⟨?_, ?_, ?_, ?_⟩
  · intro h
    simp [installRootNode, h, resOk]
  · intro h
    simp [installRootNode, h, resOk, okOr, containerInsert]
  · intro h
    simp only [isRootNode]
    rw [if_pos (by simp [beq_iff_eq, decide_eq_decide, h])]
  · intro h
    simp only [isRootNode, resOk]
    rw [if_neg (by simp [beq_iff_eq, decide_eq_decide, h])]

/-- Witness for C8 on the sample graph: node 0 is cached as a root and has
in-degree zero, so the cross-check returns true. -/
theorem rootNode_check_spec_wit :
    isRootNode G1 (some 0) = Except.ok (decide (0 ∈ G1.rootNodes)) :=
  (rootNode_check_spec G1 0).2.2.1 (by decide)

/-- C9: the pure queries are total functions of the graph state that never
produce an error and never mutate: absence, including expired or
non-member handles, is reported as `false` or an empty handle, and the
no-argument `getEdgeCount` is a plain function of the edge-list length. -/
theorem pure_query_spec (g : Graph) (s d i n eid : Nat) :
    containsNode g none = false ∧
    (n ∉ g.nodesSearch → containsNode g (some n) = false) ∧
    containsEdge g none = false ∧
    (eid ∉ g.edgesSearch → containsEdge g (some eid) = false) ∧
    findEdge g none (some d) = none ∧
    findEdge g (some s) none = none ∧
    (findEdge g (some s) (some d) = none ↔
      ∀ e ∈ g.edges, ¬(e.src = s ∧ e.dst = Dest.node d)) ∧
    (findEdgeE g (some s) (some i) = none ↔
      ∀ e ∈ g.edges, ¬(e.src = s ∧ e.dst = Dest.edge i)) ∧
    hasEdge g (some s) (some d) = (findEdge g (some s) (some d)).isSome ∧
    hasEdgeE g (some s) (some i) = (findEdgeE g (some s) (some i)).isSome ∧
    getEdgeCount g = g.edges.length % 2 ^ 32 := by
  refine ⟨rfl, ?_, rfl, ?_, rfl, rfl, ?_, ?_, rfl, rfl, ?_⟩
  · intro h
    simp [containsNode, h]
  · intro h
    simp [containsEdge, h]
  · simp only [findEdge, Option.map_eq_none', List.find?_eq_none,
      Bool.and_eq_true, beq_iff_eq, not_and]
  · simp only [findEdgeE, Option.map_eq_none', List.find?_eq_none,
      Bool.and_eq_true, beq_iff_eq, not_and]
  · unfold getEdgeCount intCast32 uintCast32
    split <;> omega

/-- Witness for C9 on the sample graph: handle 9 is not in the node index
and is reported absent. -/
theorem pure_query_spec_wit : containsNode G1 (some 9) = false :=
  (pure_query_spec G1 0 1 0 9 9).2.1 (by decide)

end GTpo
